import Mathlib

/-!
Verification of the playlist-generation core of marathon-booster
(`src/algorithm.py`), shallowly embedded over exact rationals.

Numeric fields (tempo, energy, durations, times) are modelled as `ℚ`;
the Python source performs only arithmetic and comparisons on them, so
the embedding is exact on every input the comparisons distinguish.
The `print` calls of the source are pure narration with no effect on
the returned value and are omitted.
-/

namespace MarathonBooster

/-- A track record as consumed by the core: `{id, name, artist,
duration_ms, tempo, energy, valence, danceability}`. -/
structure Track where
  id : String
  name : String
  artist : String
  duration_ms : ℚ
  tempo : ℚ
  energy : ℚ
  valence : ℚ
  danceability : ℚ
  deriving DecidableEq, Repr

/-- A race phase: name, fraction boundaries, energy band, and the
derived absolute times/duration that `define_race_phases` fills in. -/
structure Phase where
  name : String
  start_pct : ℚ
  end_pct : ℚ
  energy_min : ℚ
  energy_max : ℚ
  start_time : ℚ
  end_time : ℚ
  duration : ℚ
  deriving DecidableEq, Repr

/-- Embedding of `calculate_target_cadence` from `src/algorithm.py`: pace thresholds
4.0 and 5.0 min/km select a cadence of 180, 175 or 170 spm. -/
def calculate_target_cadence (distance_km goal_time_min : ℚ) : ℚ :=
  let pace_min_per_km := goal_time_min / distance_km
  if pace_min_per_km < 4.0 then 180
  else if pace_min_per_km < 5.0 then 175
  else 170

/-- Builds one row of the phase table of `define_race_phases`, with the
derived fields the source computes in its final loop
(`start_time = start_pct * goal_time_min`, likewise `end_time`,
`duration = end_time - start_time`). -/
def mk_phase (nm : String) (s e emin emax goal_time_min : ℚ) : Phase :=
  { name := nm
    start_pct := s
    end_pct := e
    energy_min := emin
    energy_max := emax
    start_time := s * goal_time_min
    end_time := e * goal_time_min
    duration := e * goal_time_min - s * goal_time_min }

/-- Embedding of `define_race_phases` from `src/algorithm.py`: the literal 6-phase
table; `distance_km` is accepted but unused, as in the source. -/
def define_race_phases (distance_km goal_time_min : ℚ) : List Phase :=
  [ mk_phase "Warmup" 0.0 0.05 0.5 0.6 goal_time_min
  , mk_phase "Settle" 0.05 0.30 0.5 0.65 goal_time_min
  , mk_phase "Cruise" 0.30 0.55 0.6 0.7 goal_time_min
  , mk_phase "Grind" 0.55 0.75 0.7 0.8 goal_time_min
  , mk_phase "Wall" 0.75 0.90 0.80 1.0 goal_time_min
  , mk_phase "Glory" 0.90 1.0 0.85 1.0 goal_time_min ]

/-- The per-track test of `filter_tracks_for_phase`: tempo within
tolerance of the cadence, its half or its double (all bounds
inclusive), and energy inside the phase's band (inclusive). -/
def is_suitable_track (phase : Phase) (target_cadence bpm_tolerance : ℚ)
    (track : Track) : Bool :=
  let tempo := track.tempo
  let energy := track.energy
  let matches_full_cadence :=
    decide (target_cadence - bpm_tolerance ≤ tempo ∧ tempo ≤ target_cadence + bpm_tolerance)
  let matches_half_cadence :=
    decide (target_cadence / 2 - bpm_tolerance ≤ tempo ∧ tempo ≤ target_cadence / 2 + bpm_tolerance)
  let matches_double_cadence :=
    decide (target_cadence * 2 - bpm_tolerance ≤ tempo ∧ tempo ≤ target_cadence * 2 + bpm_tolerance)
  let matches_energy := decide (phase.energy_min ≤ energy ∧ energy ≤ phase.energy_max)
  (matches_full_cadence || matches_half_cadence || matches_double_cadence) && matches_energy

/-- Embedding of `filter_tracks_for_phase` from `src/algorithm.py`: keeps, in
catalog order, the tracks passing `is_suitable_track`. -/
def filter_tracks_for_phase (tracks : List Track) (phase : Phase)
    (target_cadence : ℚ) (bpm_tolerance : ℚ := 5) : List Track :=
  tracks.filter (is_suitable_track phase target_cadence bpm_tolerance)

/-- The `while current_duration_ms < target_duration_ms and available_tracks`
loop of `fill_phase_duration`: pop the front track, append it, add its
duration, repeat. -/
def fill_loop (available : List Track) (target_duration_ms current_duration_ms : ℚ) :
    List Track :=
  match available with
  | [] => []
  | track :: rest =>
    if current_duration_ms < target_duration_ms then
      track :: fill_loop rest target_duration_ms (current_duration_ms + track.duration_ms)
    else []

/-- Embedding of `fill_phase_duration` from `src/algorithm.py`: early-return `[]` on
an empty input, otherwise run the accumulation loop against
`phase_duration_min * 60 * 1000` milliseconds starting from 0. -/
def fill_phase_duration (tracks : List Track) (phase_duration_min : ℚ) : List Track :=
  if tracks.isEmpty then []
  else fill_loop tracks (phase_duration_min * 60 * 1000) 0

/-- The final fallback of `generate_playlist`: every catalog track whose
energy lies in the phase's band, tempo ignored. -/
def energy_only_tracks (tracks : List Track) (phase : Phase) : List Track :=
  tracks.filter (fun t => decide (phase.energy_min ≤ t.energy ∧ t.energy ≤ phase.energy_max))

/-- The per-phase body of the loop in `generate_playlist`: filter at
tolerance 5; if fewer than 3 results, re-filter the full catalog at
tolerance 10; if still fewer than 3, take the energy-only tracks. -/
def select_for_phase (tracks : List Track) (phase : Phase) (target_cadence : ℚ) :
    List Track :=
  let suitable_tracks := filter_tracks_for_phase tracks phase target_cadence 5
  let suitable_tracks :=
    if suitable_tracks.length < 3 then
      filter_tracks_for_phase tracks phase target_cadence 10
    else suitable_tracks
  if suitable_tracks.length < 3 then energy_only_tracks tracks phase
  else suitable_tracks

/-- Embedding of `generate_playlist` from `src/algorithm.py`: compute the cadence and
the phase table once, then for each phase in order append the filler's
output on that phase's selection to the playlist. -/
def generate_playlist (tracks : List Track) (distance_km goal_time_min : ℚ) :
    List Track :=
  let target_cadence := calculate_target_cadence distance_km goal_time_min
  let phases := define_race_phases distance_km goal_time_min
  phases.foldl
    (fun playlist phase =>
      playlist ++ fill_phase_duration (select_for_phase tracks phase target_cadence)
        phase.duration)
    []

/-- Cumulative `duration_ms` of a list of tracks. -/
def track_duration_sum (l : List Track) : ℚ :=
  (l.map Track.duration_ms).sum

/-- C5: for positive distance and goal time, the cadence is 180 when
pace = goal_time/distance is below 4.0, 175 when pace is in [4.0, 5.0),
and 170 when pace is at least 5.0; in particular distance 10 km and
goal time 50 min give pace exactly 5.0 and cadence 170 (the boundary
pace falls in the ≥ 5.0 branch). -/
theorem calculate_target_cadence_thresholds (d g : ℚ) (hd : 0 < d) (hg : 0 < g) :
    (g / d < 4 → calculate_target_cadence d g = 180) ∧
    (4 ≤ g / d → g / d < 5 → calculate_target_cadence d g = 175) ∧
    (5 ≤ g / d → calculate_target_cadence d g = 170) ∧
    (10 : ℚ) / 50 * 5 = 1 ∧
    calculate_target_cadence 10 50 = 170 := by
  refine ⟨?_, ?_, ?_, by norm_num, by norm_num [calculate_target_cadence]⟩
  · intro h
    simp only [calculate_target_cadence]
    rw [if_pos (by norm_num; linarith)]
  · intro h4 h5
    simp only [calculate_target_cadence]
    rw [if_neg (by norm_num; linarith), if_pos (by norm_num; linarith)]
  · intro h
    simp only [calculate_target_cadence]
    rw [if_neg (by norm_num; linarith), if_neg (by norm_num; linarith)]

/-- Witness for C5 at distance 10, goal time 50: pace is exactly 5 and
the cadence is 170. -/
theorem calculate_target_cadence_thresholds_witness :
    calculate_target_cadence 10 50 = 170 :=
  (calculate_target_cadence_thresholds 10 50 (by norm_num) (by norm_num)).2.2.1
    (by norm_num)

/-- C9: for positive inputs the cadence is one of exactly 170, 175, 180,
and it is non-increasing in pace: if pace₁ ≤ pace₂ then
cadence₁ ≥ cadence₂. -/
theorem calculate_target_cadence_range_monotone (d₁ g₁ d₂ g₂ : ℚ)
    (hd₁ : 0 < d₁) (hg₁ : 0 < g₁) (hd₂ : 0 < d₂) (hg₂ : 0 < g₂)
    (hpace : g₁ / d₁ ≤ g₂ / d₂) :
    (calculate_target_cadence d₁ g₁ = 170 ∨ calculate_target_cadence d₁ g₁ = 175 ∨
      calculate_target_cadence d₁ g₁ = 180) ∧
    calculate_target_cadence d₂ g₂ ≤ calculate_target_cadence d₁ g₁ := by
  simp only [calculate_target_cadence]
  constructor
  · by_cases a1 : g₁ / d₁ < 4.0
    · rw [if_pos a1]; norm_num
    · by_cases a2 : g₁ / d₁ < 5.0
      · rw [if_neg a1, if_pos a2]; norm_num
      · rw [if_neg a1, if_neg a2]; norm_num
  · by_cases b1 : g₂ / d₂ < 4.0
    · have a1 : g₁ / d₁ < 4.0 := lt_of_le_of_lt hpace b1
      rw [if_pos a1, if_pos b1]
    · by_cases b2 : g₂ / d₂ < 5.0
      · rw [if_neg b1, if_pos b2]
        by_cases a1 : g₁ / d₁ < 4.0
        · rw [if_pos a1]; norm_num
        · have a2 : g₁ / d₁ < 5.0 := lt_of_le_of_lt hpace b2
          rw [if_neg a1, if_pos a2]
      · rw [if_neg b1, if_neg b2]
        by_cases a1 : g₁ / d₁ < 4.0
        · rw [if_pos a1]; norm_num
        · by_cases a2 : g₁ / d₁ < 5.0
          · rw [if_neg a1, if_pos a2]; norm_num
          · rw [if_neg a1, if_neg a2]

/-- Witness for C9 at two concrete positive inputs with ordered paces. -/
theorem calculate_target_cadence_range_monotone_witness :
    (calculate_target_cadence 10 39 = 170 ∨ calculate_target_cadence 10 39 = 175 ∨
      calculate_target_cadence 10 39 = 180) ∧
    calculate_target_cadence 10 55 ≤ calculate_target_cadence 10 39 :=
  calculate_target_cadence_range_monotone 10 39 10 55 (by norm_num) (by norm_num)
    (by norm_num) (by norm_num) (by norm_num)

/-- C4: for every goal_time (and any distance), `define_race_phases`
returns exactly 6 phases named Warmup, Settle, Cruise, Grind, Wall,
Glory in that order, with the literal fraction boundaries and energy
bands; the fractions increase, tile [0,1] exactly (each start equals
the previous end, first start 0, last end 1), and every phase's
duration is (end_pct − start_pct) × goal_time. -/
theorem define_race_phases_table (d g : ℚ) :
    (define_race_phases d g).length = 6 ∧
    (define_race_phases d g).map Phase.name =
      ["Warmup", "Settle", "Cruise", "Grind", "Wall", "Glory"] ∧
    (define_race_phases d g).map (fun p => (p.start_pct, p.end_pct)) =
      [(0, 0.05), (0.05, 0.30), (0.30, 0.55), (0.55, 0.75), (0.75, 0.90), (0.90, 1)] ∧
    (define_race_phases d g).map (fun p => (p.energy_min, p.energy_max)) =
      [(0.5, 0.6), (0.5, 0.65), (0.6, 0.7), (0.7, 0.8), (0.80, 1), (0.85, 1)] ∧
    (define_race_phases d g).Chain' (fun p q => p.end_pct = q.start_pct) ∧
    (∀ p ∈ define_race_phases d g, p.start_pct < p.end_pct) ∧
    ((define_race_phases d g).head?.map Phase.start_pct = some 0) ∧
    ((define_race_phases d g).getLast?.map Phase.end_pct = some 1) ∧
    (∀ p ∈ define_race_phases d g, p.duration = (p.end_pct - p.start_pct) * g) := by
  refine ⟨rfl, ?_, ?_, ?_, ?_, ?_, ?_, ?_, ?_⟩
  · simp [define_race_phases, mk_phase]
  · norm_num [define_race_phases, mk_phase]
  · norm_num [define_race_phases, mk_phase]
  · norm_num [define_race_phases, mk_phase]
  · intro p hp
    simp only [define_race_phases, List.mem_cons, List.not_mem_nil, or_false] at hp
    rcases hp with rfl | rfl | rfl | rfl | rfl | rfl <;> (simp only [mk_phase]; norm_num)
  · norm_num [define_race_phases, mk_phase]
  · norm_num [define_race_phases, mk_phase]
  · intro p hp
    simp only [define_race_phases, List.mem_cons, List.not_mem_nil, or_false] at hp
    rcases hp with rfl | rfl | rfl | rfl | rfl | rfl <;> (simp only [mk_phase]; ring)

/-- Witness for C4 at goal_time = 60: the Grind phase row has duration
(0.75 − 0.55) × 60 = 12 minutes. -/
theorem define_race_phases_table_witness :
    mk_phase "Grind" 0.55 0.75 0.7 0.8 60 ∈ define_race_phases 26 60 ∧
    (mk_phase "Grind" 0.55 0.75 0.7 0.8 60).duration =
      ((mk_phase "Grind" 0.55 0.75 0.7 0.8 60).end_pct -
        (mk_phase "Grind" 0.55 0.75 0.7 0.8 60).start_pct) * 60 := by
  have hmem : mk_phase "Grind" 0.55 0.75 0.7 0.8 60 ∈ define_race_phases 26 60 := by
    simp [define_race_phases]
  exact ⟨hmem, (define_race_phases_table 26 60).2.2.2.2.2.2.2.2 _ hmem⟩

/-- C3: `filter_tracks_for_phase` keeps exactly the tracks whose tempo
lies within tolerance (inclusive) of the cadence, of half the cadence,
or of double the cadence, and whose energy lies in the phase's band
(inclusive); the result is a sublist of the input (subset in original
catalog order), and a second run on identical inputs is identical. -/
theorem filter_tracks_for_phase_spec (tracks : List Track) (ph : Phase) (cad tol : ℚ) :
    (∀ t, t ∈ filter_tracks_for_phase tracks ph cad tol ↔
      t ∈ tracks ∧
      ((cad - tol ≤ t.tempo ∧ t.tempo ≤ cad + tol) ∨
       (cad / 2 - tol ≤ t.tempo ∧ t.tempo ≤ cad / 2 + tol) ∨
       (cad * 2 - tol ≤ t.tempo ∧ t.tempo ≤ cad * 2 + tol)) ∧
      (ph.energy_min ≤ t.energy ∧ t.energy ≤ ph.energy_max)) ∧
    List.Sublist (filter_tracks_for_phase tracks ph cad tol) tracks ∧
    filter_tracks_for_phase tracks ph cad tol = filter_tracks_for_phase tracks ph cad tol := by
  refine ⟨?_, List.filter_sublist tracks, rfl⟩
  intro t
  simp only [filter_tracks_for_phase, List.mem_filter, is_suitable_track,
    Bool.and_eq_true, Bool.or_eq_true, decide_eq_true_eq]
  tauto

/-- The accumulation loop returns a prefix of its input. -/
lemma fill_loop_front (av : List Track) (tgt cur : ℚ) :
    ∃ rest, av = fill_loop av tgt cur ++ rest := by
  induction av generalizing cur with
  | nil => exact ⟨[], rfl⟩
  | cons t rest ih =>
    by_cases h : cur < tgt
    · obtain ⟨r, hr⟩ := ih (cur + t.duration_ms)
      refine ⟨r, ?_⟩
      simp only [fill_loop, if_pos h, List.cons_append]
      exact congrArg (t :: ·) hr
    · exact ⟨t :: rest, by simp [fill_loop, if_neg h]⟩

/-- Either the loop's accumulated duration reaches the target, or the
loop consumed its whole input. -/
lemma fill_loop_sum (av : List Track) (tgt cur : ℚ) :
    tgt ≤ cur + track_duration_sum (fill_loop av tgt cur) ∨ fill_loop av tgt cur = av := by
  induction av generalizing cur with
  | nil => exact Or.inr rfl
  | cons t rest ih =>
    by_cases h : cur < tgt
    · rcases ih (cur + t.duration_ms) with hs | he
      · left
        simp only [fill_loop, if_pos h, track_duration_sum, List.map_cons,
          List.sum_cons] at hs ⊢
        linarith
      · right
        simp [fill_loop, if_pos h, he]
    · left
      simp only [fill_loop, if_neg h, track_duration_sum, List.map_nil, List.sum_nil]
      linarith [not_lt.mp h]

/-- Every proper partial sum of the loop's output stays strictly below
the target: the loop stops at the first track that crosses it. -/
lemma fill_loop_partial_sum (av : List Track) (tgt cur : ℚ) :
    ∀ k, k < (fill_loop av tgt cur).length →
      cur + track_duration_sum ((fill_loop av tgt cur).take k) < tgt := by
  induction av generalizing cur with
  | nil => intro k hk; simp [fill_loop] at hk
  | cons t rest ih =>
    intro k hk
    by_cases h : cur < tgt
    · simp only [fill_loop, if_pos h] at hk ⊢
      match k with
      | 0 => simpa [track_duration_sum] using h
      | k + 1 =>
        have hrec := ih (cur + t.duration_ms) k (by simpa using hk)
        simp only [List.take_succ_cons, track_duration_sum, List.map_cons, List.sum_cons]
        simp only [track_duration_sum] at hrec
        linarith
    · simp [fill_loop, if_neg h] at hk

/-- Function `fill_phase_duration` agrees with the bare loop even on the
empty-input early return. -/
lemma fill_phase_duration_eq_loop (tracks : List Track) (dur : ℚ) :
    fill_phase_duration tracks dur = fill_loop tracks (dur * 60 * 1000) 0 := by
  cases tracks <;> simp [fill_phase_duration, fill_loop]

/-- C2: `fill_phase_duration` returns at most as many tracks as it was
given, taken from the front of the input in order (a prefix); its
cumulative `duration_ms` reaches `minutes × 60 × 1000` unless the input
was exhausted first; every sum of the selection short of the last track
is strictly below the target (first-crossing stop); and an empty input
yields an empty output. -/
theorem fill_phase_duration_spec (tracks : List Track) (dur : ℚ) :
    (fill_phase_duration tracks dur).length ≤ tracks.length ∧
    (∃ rest, tracks = fill_phase_duration tracks dur ++ rest) ∧
    (dur * 60 * 1000 ≤ track_duration_sum (fill_phase_duration tracks dur) ∨
      fill_phase_duration tracks dur = tracks) ∧
    (∀ k, k < (fill_phase_duration tracks dur).length →
      track_duration_sum ((fill_phase_duration tracks dur).take k) < dur * 60 * 1000) ∧
    fill_phase_duration ([] : List Track) dur = [] := by
  rw [fill_phase_duration_eq_loop]
  refine ⟨?_, fill_loop_front tracks _ 0, ?_, ?_, rfl⟩
  · obtain ⟨r, hr⟩ := fill_loop_front tracks (dur * 60 * 1000) 0
    calc (fill_loop tracks (dur * 60 * 1000) 0).length
        ≤ (fill_loop tracks (dur * 60 * 1000) 0).length + r.length := Nat.le_add_right _ _
      _ = tracks.length := by rw [← List.length_append, ← hr]
  · have h := fill_loop_sum tracks (dur * 60 * 1000) 0
    simpa using h
  · intro k hk
    have h := fill_loop_partial_sum tracks (dur * 60 * 1000) 0 k hk
    simpa using h

/-- Concrete track at the target cadence for the demonstrations below. -/
def track_a : Track :=
  { id := "a", name := "Alpha", artist := "Solo", duration_ms := 200000,
    tempo := 175, energy := 0.75, valence := 0.5, danceability := 0.5 }

/-- Concrete track 3 BPM under cadence, inside tolerance 5. -/
def track_b : Track :=
  { id := "b", name := "Beta", artist := "Solo", duration_ms := 210000,
    tempo := 172, energy := 0.75, valence := 0.5, danceability := 0.5 }

/-- Concrete track 8 BPM over cadence: outside tolerance 5, inside 10. -/
def track_c : Track :=
  { id := "c", name := "Gamma", artist := "Solo", duration_ms := 190000,
    tempo := 183, energy := 0.75, valence := 0.5, danceability := 0.5 }

/-- Concrete track 9 BPM under cadence: outside tolerance 5, inside 10. -/
def track_d : Track :=
  { id := "d", name := "Delta", artist := "Solo", duration_ms := 205000,
    tempo := 166, energy := 0.75, valence := 0.5, danceability := 0.5 }

/-- Four-track catalog: exactly 2 tracks match the Grind phase at
tolerance 5 and all 4 at tolerance 10 for cadence 175. -/
def demo_catalog : List Track := [track_a, track_b, track_c, track_d]

/-- The Grind phase row of the table at goal_time 60. -/
def grind_phase : Phase := mk_phase "Grind" 0.55 0.75 0.7 0.8 60

/-- The Warmup phase row of the table at goal_time 60. -/
def warmup_phase : Phase := mk_phase "Warmup" 0.0 0.05 0.5 0.6 60

/-- On a 3-minute target the concrete 2-track demo list fills with just
its first track: 200000 ms already reaches 180000 ms. -/
lemma fill_demo_eval : fill_phase_duration [track_a, track_b] 3 = [track_a] := by
  norm_num [fill_phase_duration, fill_loop, track_a, track_b]

/-- Witness for C2: on a concrete 2-track list and a 3-minute target,
the filler keeps at most 2 tracks, its output is nonempty, and the sum
short of the last selected track is below the target. -/
theorem fill_phase_duration_spec_witness :
    (fill_phase_duration [track_a, track_b] 3).length ≤ 2 ∧
    0 < (fill_phase_duration [track_a, track_b] 3).length ∧
    track_duration_sum ((fill_phase_duration [track_a, track_b] 3).take 0) <
      3 * 60 * 1000 :=
  ⟨(fill_phase_duration_spec [track_a, track_b] 3).1, by rw [fill_demo_eval]; norm_num,
    (fill_phase_duration_spec [track_a, track_b] 3).2.2.2.1 0
      (by rw [fill_demo_eval]; norm_num)⟩

/-- Folding list-append over phases from `init` concatenates the
per-phase blocks after `init`. -/
lemma foldl_append_join (phases : List Phase) (f : Phase → List Track)
    (init : List Track) :
    phases.foldl (fun acc ph => acc ++ f ph) init = init ++ (phases.map f).join := by
  induction phases generalizing init with
  | nil => simp
  | cons p ps ih => simp [ih, List.append_assoc]

/-- Unfolded, `generate_playlist` is the concatenation, in phase order, of the
filler output on each phase's escalated selection. -/
lemma generate_playlist_eq_join (tracks : List Track) (d g : ℚ) :
    generate_playlist tracks d g =
      ((define_race_phases d g).map (fun ph =>
        fill_phase_duration (select_for_phase tracks ph (calculate_target_cadence d g))
          ph.duration)).join := by
  simp only [generate_playlist]
  rw [foldl_append_join, List.nil_append]

/-- Whatever branch of the escalation fires, the selection is a sublist
of the catalog. -/
lemma select_for_phase_sublist (tracks : List Track) (ph : Phase) (cad : ℚ) :
    List.Sublist (select_for_phase tracks ph cad) tracks := by
  simp only [select_for_phase, energy_only_tracks, filter_tracks_for_phase]
  split
  · split
    · exact List.filter_sublist tracks
    · exact List.filter_sublist tracks
  · exact List.filter_sublist tracks

/-- The filler's output is a sublist of its input. -/
lemma fill_phase_duration_sublist (tracks : List Track) (dur : ℚ) :
    List.Sublist (fill_phase_duration tracks dur) tracks := by
  obtain ⟨r, hr⟩ := fill_loop_front tracks (dur * 60 * 1000) 0
  rw [fill_phase_duration_eq_loop]
  have h : List.Sublist (fill_loop tracks (dur * 60 * 1000) 0)
      (fill_loop tracks (dur * 60 * 1000) 0 ++ r) := List.sublist_append_left _ _
  rwa [← hr] at h

/-- C7: the playlist is exactly the concatenation, in phase order, of
the per-phase filler outputs; each per-phase output is an
order-preserving sublist of the catalog (so no catalog entry is taken
twice within one phase, though a track may recur in a later phase);
and every record in the output is an unmodified record of the input
catalog. -/
theorem generate_playlist_concat (tracks : List Track) (d g : ℚ) :
    generate_playlist tracks d g =
      ((define_race_phases d g).map (fun ph =>
        fill_phase_duration (select_for_phase tracks ph (calculate_target_cadence d g))
          ph.duration)).join ∧
    (∀ ph cad dur,
      List.Sublist (fill_phase_duration (select_for_phase tracks ph cad) dur) tracks) ∧
    (∀ t, t ∈ generate_playlist tracks d g → t ∈ tracks) := by
  refine ⟨generate_playlist_eq_join tracks d g, ?_, ?_⟩
  · intro ph cad dur
    exact (fill_phase_duration_sublist _ _).trans (select_for_phase_sublist tracks ph cad)
  · intro t ht
    rw [generate_playlist_eq_join] at ht
    simp only [List.mem_join, List.mem_map] at ht
    obtain ⟨l, ⟨ph, hph, rfl⟩, htl⟩ := ht
    exact ((fill_phase_duration_sublist _ _).trans
      (select_for_phase_sublist _ _ _)).subset htl

/-- On the one-track catalog and a 10 km / 60 min request, the playlist
is exactly the Grind phase's energy-only selection: the single track. -/
lemma playlist_demo_eval : generate_playlist [track_a] 10 60 = [track_a] := by
  norm_num [generate_playlist, calculate_target_cadence, define_race_phases, mk_phase,
    select_for_phase, filter_tracks_for_phase, is_suitable_track, energy_only_tracks,
    fill_phase_duration, fill_loop, track_a, List.filter]

/-- Witness for C7: the single demo track appears in the generated
playlist, and by the theorem it is a record of the input catalog. -/
theorem generate_playlist_concat_witness :
    track_a ∈ generate_playlist [track_a] 10 60 ∧ track_a ∈ [track_a] :=
  ⟨by rw [playlist_demo_eval]; exact List.mem_singleton_self _,
    (generate_playlist_concat [track_a] 10 60).2.2 track_a
      (by rw [playlist_demo_eval]; exact List.mem_singleton_self _)⟩

/-- C1: when the tolerance-5 filter of the full catalog yields fewer
than 3 tracks, the assembler's per-phase selection re-filters the full
original catalog at tolerance 10; if that is still under 3 tracks it
takes instead every catalog track whose energy lies in the phase's
band, tempo ignored; and within `generate_playlist` that selection is
what is passed to the filler for each phase. -/
theorem generate_playlist_fallback (tracks : List Track) (ph : Phase) (cad : ℚ)
    (h5 : (filter_tracks_for_phase tracks ph cad 5).length < 3) :
    (3 ≤ (filter_tracks_for_phase tracks ph cad 10).length →
      select_for_phase tracks ph cad = filter_tracks_for_phase tracks ph cad 10) ∧
    ((filter_tracks_for_phase tracks ph cad 10).length < 3 →
      select_for_phase tracks ph cad = energy_only_tracks tracks ph) ∧
    (∀ t, t ∈ energy_only_tracks tracks ph ↔
      t ∈ tracks ∧ ph.energy_min ≤ t.energy ∧ t.energy ≤ ph.energy_max) ∧
    (∀ dk gm, generate_playlist tracks dk gm =
      ((define_race_phases dk gm).map (fun p =>
        fill_phase_duration (select_for_phase tracks p (calculate_target_cadence dk gm))
          p.duration)).join) := by
  refine ⟨?_, ?_, ?_, fun dk gm => generate_playlist_eq_join tracks dk gm⟩
  · intro h10
    simp only [select_for_phase, if_pos h5, if_neg (not_lt.mpr h10)]
  · intro h10
    simp only [select_for_phase, if_pos h5, if_pos h10]
  · intro t
    simp only [energy_only_tracks, List.mem_filter, decide_eq_true_eq]

/-- At cadence 175 and the Grind phase, exactly the first two demo
tracks pass the tolerance-5 filter. -/
lemma filter_demo_eval_5 :
    filter_tracks_for_phase demo_catalog grind_phase 175 5 = [track_a, track_b] := by
  norm_num [filter_tracks_for_phase, is_suitable_track, demo_catalog, grind_phase,
    mk_phase, track_a, track_b, track_c, track_d, List.filter]

/-- At cadence 175 and the Grind phase, all four demo tracks pass the
tolerance-10 filter. -/
lemma filter_demo_eval_10 :
    filter_tracks_for_phase demo_catalog grind_phase 175 10 = demo_catalog := by
  norm_num [filter_tracks_for_phase, is_suitable_track, demo_catalog, grind_phase,
    mk_phase, track_a, track_b, track_c, track_d, List.filter]

/-- Witness for C1: a catalog with exactly 2 tracks matching at
tolerance 5 escalates to the tolerance-10 re-filter of the full
catalog (which has at least 3 tracks), before any energy-only
fallback. -/
theorem generate_playlist_fallback_witness :
    (filter_tracks_for_phase demo_catalog grind_phase 175 5).length = 2 ∧
    3 ≤ (filter_tracks_for_phase demo_catalog grind_phase 175 10).length ∧
    select_for_phase demo_catalog grind_phase 175 =
      filter_tracks_for_phase demo_catalog grind_phase 175 10 :=
  ⟨by rw [filter_demo_eval_5]; rfl,
    by rw [filter_demo_eval_10]; norm_num [demo_catalog],
    (generate_playlist_fallback demo_catalog grind_phase 175
        (by rw [filter_demo_eval_5]; norm_num)).1
      (by rw [filter_demo_eval_10]; norm_num [demo_catalog])⟩

/-- C6: the assembler (a total function in this embedding, so no error
is ever raised) returns an empty playlist on an empty catalog, always
works through exactly the 6 phases in order (the playlist is the join
over that full phase list), and a phase whose final selection is empty
simply contributes no tracks. -/
theorem generate_playlist_graceful :
    (∀ dk gm, generate_playlist [] dk gm = []) ∧
    (∀ dk gm, (define_race_phases dk gm).length = 6) ∧
    (∀ tracks dk gm, generate_playlist tracks dk gm =
      ((define_race_phases dk gm).map (fun ph =>
        fill_phase_duration (select_for_phase tracks ph (calculate_target_cadence dk gm))
          ph.duration)).join) ∧
    (∀ tracks ph cad dur, select_for_phase tracks ph cad = [] →
      fill_phase_duration (select_for_phase tracks ph cad) dur = []) := by
  refine ⟨?_, fun dk gm => rfl, fun tracks dk gm => generate_playlist_eq_join tracks dk gm,
    ?_⟩
  · intro dk gm
    rw [generate_playlist_eq_join]
    simp [select_for_phase, filter_tracks_for_phase, energy_only_tracks,
      fill_phase_duration, define_race_phases]
  · intro tracks ph cad dur h
    rw [h]
    simp [fill_phase_duration]

/-- At cadence 170 the Warmup phase rejects the demo track at every
escalation step: its energy 0.75 is outside the [0.5, 0.6] band. -/
lemma select_warmup_demo_eval : select_for_phase [track_a] warmup_phase 170 = [] := by
  norm_num [select_for_phase, filter_tracks_for_phase, is_suitable_track,
    energy_only_tracks, warmup_phase, mk_phase, track_a, List.filter]

/-- Witness for C6: a phase whose final selection is empty contributes
no tracks, on the concrete Warmup phase with the demo catalog. -/
theorem generate_playlist_graceful_witness :
    fill_phase_duration (select_for_phase [track_a] warmup_phase 170) 3 = [] :=
  generate_playlist_graceful.2.2.2 [track_a] warmup_phase 170 3 select_warmup_demo_eval

/-- C8: `generate_playlist` is deterministic: identical catalog,
distance and goal time give identical output; and selection is the
strictly order-preserving front-of-list policy (the filler's output is
a prefix of its input), with no randomness anywhere. -/
theorem generate_playlist_deterministic (t₁ t₂ : List Track) (d₁ d₂ g₁ g₂ : ℚ)
    (ht : t₁ = t₂) (hd : d₁ = d₂) (hg : g₁ = g₂) :
    generate_playlist t₁ d₁ g₁ = generate_playlist t₂ d₂ g₂ ∧
    (∀ ts dur, ∃ rest, ts = fill_phase_duration ts dur ++ rest) := by
  subst ht; subst hd; subst hg
  refine ⟨rfl, fun ts dur => ?_⟩
  rw [fill_phase_duration_eq_loop]
  exact fill_loop_front ts _ 0

/-- Witness for C8 on concrete equal inputs. -/
theorem generate_playlist_deterministic_witness :
    generate_playlist [track_a] 10 60 = generate_playlist [track_a] 10 60 ∧
    (∀ ts dur, ∃ rest, ts = fill_phase_duration ts dur ++ rest) :=
  generate_playlist_deterministic [track_a] [track_a] 10 10 60 60 rfl rfl rfl

/-- Propositional reading of the per-track suitability test. -/
lemma is_suitable_track_iff (ph : Phase) (cad tol : ℚ) (t : Track) :
    is_suitable_track ph cad tol t = true ↔
      ((cad - tol ≤ t.tempo ∧ t.tempo ≤ cad + tol) ∨
       (cad / 2 - tol ≤ t.tempo ∧ t.tempo ≤ cad / 2 + tol) ∨
       (cad * 2 - tol ≤ t.tempo ∧ t.tempo ≤ cad * 2 + tol)) ∧
      (ph.energy_min ≤ t.energy ∧ t.energy ≤ ph.energy_max) := by
  simp [is_suitable_track]
  tauto

/-- C10: the filter is monotone in the tolerance — the tolerance-10
result contains the tolerance-5 result as a sublist — and the
energy-only fallback set contains every tempo-and-energy filter result;
hence each escalation step yields at least as many candidates as the
step before. -/
theorem filter_escalation_monotone (tracks : List Track) (ph : Phase) (cad : ℚ) :
    (∀ tol tol', tol ≤ tol' →
      List.Sublist (filter_tracks_for_phase tracks ph cad tol)
        (filter_tracks_for_phase tracks ph cad tol')) ∧
    (∀ tol, List.Sublist (filter_tracks_for_phase tracks ph cad tol)
      (energy_only_tracks tracks ph)) ∧
    (filter_tracks_for_phase tracks ph cad 5).length ≤
      (filter_tracks_for_phase tracks ph cad 10).length ∧
    (filter_tracks_for_phase tracks ph cad 10).length ≤
      (energy_only_tracks tracks ph).length := by
  have hmono : ∀ tol tol', tol ≤ tol' →
      List.Sublist (filter_tracks_for_phase tracks ph cad tol)
        (filter_tracks_for_phase tracks ph cad tol') := by
    intro tol tol' htol
    simp only [filter_tracks_for_phase]
    refine List.monotone_filter_right tracks ?_
    intro a ha
    rw [is_suitable_track_iff] at *
    obtain ⟨hm, he⟩ := ha
    refine ⟨?_, he⟩
    rcases hm with ⟨h1, h2⟩ | ⟨h1, h2⟩ | ⟨h1, h2⟩
    · exact Or.inl ⟨by linarith, by linarith⟩
    · exact Or.inr (Or.inl ⟨by linarith, by linarith⟩)
    · exact Or.inr (Or.inr ⟨by linarith, by linarith⟩)
  have henergy : ∀ tol, List.Sublist (filter_tracks_for_phase tracks ph cad tol)
      (energy_only_tracks tracks ph) := by
    intro tol
    simp only [filter_tracks_for_phase, energy_only_tracks]
    refine List.monotone_filter_right tracks ?_
    intro a ha
    rw [is_suitable_track_iff] at ha
    simp only [decide_eq_true_eq]
    exact ha.2
  exact ⟨hmono, henergy, (hmono 5 10 (by norm_num)).length_le, (henergy 10).length_le⟩

/-- Witness for C10: on the demo catalog, the tolerance-5 result is a
sublist of the tolerance-10 result for the Grind phase at cadence 175. -/
theorem filter_escalation_monotone_witness :
    List.Sublist (filter_tracks_for_phase demo_catalog grind_phase 175 5)
      (filter_tracks_for_phase demo_catalog grind_phase 175 10) :=
  (filter_escalation_monotone demo_catalog grind_phase 175).1 5 10 (by norm_num)

end MarathonBooster
